import Mathlib

/-!
The manage-api service: request handlers over a relational `users` table.

A shallow embedding of `src/manage-api/main.go`.  Every handler of the Go file is a
Lean function of the decoded request and of the state of the store; it returns the
HTTP status and JSON body passed to `c.JSON`, and (for the handlers that write) the
store after the call.

The store itself (PostgreSQL behind `database/sql` and `lib/pq`) is not part of the
repository.  It is modelled below as a table of rows with an id sequence; each of the
six SQL statements that occur in `main.go` gets the meaning the statement has on such
a table, including the ways the store refuses a statement: a broken connection, a text
parameter holding a zero byte, an id parameter that is not a decimal integer of the
column's type, an exhausted sequence, a violated key or uniqueness constraint.
-/

namespace ManageApi

/-! ## JSON values written by `c.JSON` -/

/-- Field values that occur in the response bodies of `main.go`. -/
inductive JVal where
  | null
  | bool (b : Bool)
  | int (n : Int)
  | str (s : String)
  | strs (xs : List String)
  deriving DecidableEq, Repr

/-- A JSON object: its fields in the order the encoder writes them. -/
abbrev JObj := List (String × JVal)

/-- A response body: `null`, one object, or an array of objects. -/
inductive Json where
  | null
  | obj (o : JObj)
  | arr (xs : List JObj)
  deriving DecidableEq, Repr

/-- The value of field `k` of an object body (`none` when the body has no such field). -/
def Json.field (j : Json) (k : String) : Option JVal :=
  match j with
  | .obj o => (o.find? (fun kv => kv.1 == k)).map (fun kv => kv.2)
  | _ => none

/-- What a handler hands to `c.JSON`: the status code and the body. -/
structure Response where
  status : Nat
  body : Json
  deriving DecidableEq, Repr

/-! `net/http` status constants used by the handlers. -/

abbrev StatusOK : Nat := 200
abbrev StatusBadRequest : Nat := 400
abbrev StatusNotFound : Nat := 404
abbrev StatusConflict : Nat := 409
abbrev StatusInternalServerError : Nat := 500

/-! ## Go values of `main.go` -/

/-- A Go slice: `none` is the nil slice (`var xs []T`), `some l` a non-nil one. -/
abbrev Slice (α : Type) := Option (List α)

/-- Go `append(xs, x)`: the result is never nil. -/
def Slice.append {α : Type} (xs : Slice α) (x : α) : Slice α :=
  some (xs.getD [] ++ [x])

/-- Lines 13-20: `type statusResponse struct`. -/
structure statusResponse where
  Alive : Bool
  Application : String
  Email : String
  Version : String
  Errors : Slice String
  Environment : String
  deriving DecidableEq, Repr

/-- Lines 22-25: `type User struct`.  The fields carry `json` tags only: there is no
`binding` tag, so binding a body fails only when the JSON does not decode. -/
structure User where
  Name : String
  Email : String
  deriving DecidableEq, Repr

/-- Lines 27-29: `type ResponseMessage struct`. -/
structure ResponseMessage where
  Message : String
  deriving DecidableEq, Repr

/-- `encoding/json` on a `[]string`: the nil slice is written as `null`. -/
def marshalStrings : Slice String → JVal
  | none => .null
  | some xs => .strs xs

/-- `encoding/json` on a `statusResponse`: fields in declaration order, named by their tags. -/
def statusResponse.marshal (r : statusResponse) : Json :=
  .obj [("alive", .bool r.Alive), ("application", .str r.Application),
        ("email", .str r.Email), ("version", .str r.Version),
        ("errors", marshalStrings r.Errors), ("environment", .str r.Environment)]

/-- `encoding/json` on a `ResponseMessage`. -/
def ResponseMessage.marshal (m : ResponseMessage) : Json :=
  .obj [("message", .str m.Message)]

/-- `encoding/json` on a `[]map[string]interface{}`: the nil slice is written as `null`,
a non-nil slice as an array. -/
def marshalMaps : Slice JObj → Json
  | none => .null
  | some xs => .arr xs

/-- A Go `error` as the handlers use it: compared with `sql.ErrNoRows`, or read as text. -/
inductive GoError where
  | ErrNoRows
  | other (text : String)
  deriving DecidableEq, Repr

deriving instance DecidableEq for Except

/-- The method `err.Error()`. -/
def GoError.Error : GoError → String
  | .ErrNoRows => "sql: no rows in result set"
  | .other t => t

/-- Characters of `sub` occur consecutively in `s`. -/
def containsChars : List Char → List Char → Bool
  | [], sub => sub.isEmpty
  | c :: cs, sub => sub.isPrefixOf (c :: cs) || containsChars cs sub

/-- Go `strings.Contains(s, substr)`. -/
def stringsContains (s substr : String) : Bool :=
  containsChars s.data substr.data

/-! ## The store -/

/-- One row of `users(id, name, email)`. -/
structure Row where
  id : Int
  name : String
  email : String
  deriving DecidableEq, Repr

/-- The integer types PostgreSQL offers for a key column fed by a sequence
(`smallserial`, `serial`, `bigserial`). -/
inductive IdType where
  | smallint
  | integer
  | bigint
  deriving DecidableEq, Repr

/-- Largest value of the type; the smallest is `-(max + 1)`.  Every value fits a Go `int`
(64 bits), the type `createUser` and `getAllUsers` scan ids into. -/
def IdType.max : IdType → Nat
  | .smallint => 32767
  | .integer => 2147483647
  | .bigint => 9223372036854775807

/-- Name of the type in the store's error texts. -/
def IdType.name : IdType → String
  | .smallint => "smallint"
  | .integer => "integer"
  | .bigint => "bigint"

/-- Modelled from the spec: the `users` table and its schema are not in the repository
(spec, sections 3 and 6: `users(id primary key, name, email)`, an integer id assigned by
the store, a uniqueness constraint over name and/or email assumed at the store level).
The state is: the rows of `users` in scan order, the last value handed out by the id
sequence, the integer type of the `id` column and its sequence, which uniqueness
constraints the schema declares besides the primary key (left open, as the spec leaves
them), and whether the connection is broken (`down = some text`: every statement and
`Ping` fail with that text). -/
structure Store where
  rows : List Row
  seq : Nat
  idType : IdType
  uniqueName : Bool
  uniqueEmail : Bool
  uniquePair : Bool
  down : Option String
  deriving DecidableEq, Repr

/-- Rows `a` and `b` may not coexist under the declared uniqueness constraints. -/
def Store.conflict (db : Store) (a b : Row) : Bool :=
  (db.uniqueName && a.name == b.name) ||
  (db.uniqueEmail && a.email == b.email) ||
  (db.uniquePair && a.name == b.name && a.email == b.email)

/-- Error text of a violated uniqueness constraint, as `lib/pq` reports it. -/
def uniqueViolation (constraintName : String) : String :=
  "pq: duplicate key value violates unique constraint \"" ++ constraintName ++ "\""

/-- Error text for a parameter that is not an integer numeral, as `lib/pq` reports it. -/
def invalidInteger (typeName text : String) : String :=
  "pq: invalid input syntax for type " ++ typeName ++ ": \"" ++ text ++ "\""

/-- Error text for an integer numeral beyond the column's type. -/
def outOfRange (typeName text : String) : String :=
  "pq: value \"" ++ text ++ "\" is out of range for type " ++ typeName

/-- Error text for a text parameter that holds a zero byte. -/
def invalidByte : String :=
  "pq: invalid byte sequence for encoding \"UTF8\": 0x00"

/-- Error text of an exhausted sequence. -/
def sequenceExhausted : String :=
  "pq: nextval: reached maximum value of sequence \"users_id_seq\""

/-- The store takes a text parameter only when it holds no zero byte. -/
def textOk (s : String) : Bool :=
  s.data.all (fun c => c.toNat != 0)

/-- White space as the store's integer input skips it: blank, tab, line feed, vertical
tab, form feed, carriage return. -/
def isBlank (c : Char) : Bool :=
  c.toNat == 32 || (9 ≤ c.toNat && c.toNat ≤ 13)

/-- A decimal digit `0`..`9`. -/
def isDigitChar (c : Char) : Bool :=
  48 ≤ c.toNat && c.toNat ≤ 57

/-- Decimal digits read left to right onto the accumulator; after the last digit only
white space may follow. -/
def parseDigits : List Char → Nat → Option Nat
  | [], acc => some acc
  | c :: cs, acc =>
    if isDigitChar c then parseDigits cs (10 * acc + (c.toNat - 48))
    else if (c :: cs).all isBlank then some acc
    else none

/-- A numeral: at least one digit, then digits, then possibly white space. -/
def parseNumeral : List Char → Option Nat
  | [] => none
  | c :: cs => if isDigitChar c then parseDigits (c :: cs) 0 else none

/-- The store's reading of a text as a decimal integer: white space, an optional sign,
at least one digit, white space. -/
def parseInt (s : String) : Option Int :=
  match s.data.dropWhile isBlank with
  | [] => none
  | c :: cs =>
    if c = '-' then (parseNumeral cs).map (fun n => -Int.ofNat n)
    else if c = '+' then (parseNumeral cs).map Int.ofNat
    else (parseNumeral (c :: cs)).map Int.ofNat

/-- The store's reading of the text parameter compared with the column `id`: the text must
hold no zero byte, be a decimal integer, and lie within the column's type; otherwise the
statement fails with the error text returned here. -/
def Store.parseId (db : Store) (text : String) : Except String Int :=
  if textOk text then
    match parseInt text with
    | none => .error (invalidInteger db.idType.name text)
    | some n =>
      if -(db.idType.max : Int) - 1 ≤ n ∧ n ≤ (db.idType.max : Int) then .ok n
      else .error (outOfRange db.idType.name text)
  else .error invalidByte

/-- `db.Ping()`. -/
def Store.Ping (db : Store) : Option GoError :=
  db.down.map GoError.other

/-- `SELECT id FROM users WHERE name=$1 OR email=$2` read by `QueryRow(..).Scan(&id)`:
the id of the first matching row, `sql.ErrNoRows` when no row matches. -/
def Store.selectIdByNameOrEmail (db : Store) (name email : String) : Except GoError Int :=
  match db.down with
  | some e => .error (.other e)
  | none =>
    if textOk name && textOk email then
      match db.rows.find? (fun r => r.name == name || r.email == email) with
      | some r => .ok r.id
      | none => .error .ErrNoRows
    else .error (.other invalidByte)

/-- `INSERT INTO users(name, email) VALUES($1, $2) returning id;` read by
`QueryRow(..).Scan(&id)`.  The id is the next value of the sequence; an exhausted
sequence makes the statement fail.  Once taken, the value is spent whether or not the
row is accepted; the row is refused when its id or its fields collide with an existing
row under the primary key or a declared constraint. -/
def Store.insertReturningId (db : Store) (name email : String) : Except GoError Int × Store :=
  match db.down with
  | some e => (.error (.other e), db)
  | none =>
    if textOk name && textOk email then
      if db.seq + 1 ≤ db.idType.max then
        let new : Row := { id := (db.seq : Int) + 1, name := name, email := email }
        let db1 : Store := { db with seq := db.seq + 1 }
        if db.rows.any (fun r => r.id == new.id) then
          (.error (.other (uniqueViolation "users_pkey")), db1)
        else if db.rows.any (fun r => db.conflict new r) then
          (.error (.other (uniqueViolation "users_unique")), db1)
        else (.ok new.id, { db1 with rows := db.rows ++ [new] })
      else (.error (.other sequenceExhausted), db)
    else (.error (.other invalidByte), db)

/-- `SELECT id, name, email FROM users` as `db.Query` returns it. -/
def Store.selectAll (db : Store) : Except GoError (List Row) :=
  match db.down with
  | some e => .error (.other e)
  | none => .ok db.rows

/-- `SELECT id, name, email FROM users WHERE id = $1` read by `QueryRow(..).Scan(..)`. -/
def Store.selectById (db : Store) (id : String) : Except GoError Row :=
  match db.down with
  | some e => .error (.other e)
  | none =>
    match db.parseId id with
    | .error e => .error (.other e)
    | .ok n =>
      match db.rows.find? (fun r => r.id == n) with
      | some r => .ok r
      | none => .error .ErrNoRows

/-- A `sql.Result`: the number of rows the statement changed. -/
structure Result where
  affected : Nat
  deriving DecidableEq, Repr

/-- `result.RowsAffected()`; `lib/pq` never returns an error here. -/
def Result.RowsAffected (r : Result) : Except GoError Int :=
  .ok (r.affected : Int)

/-- `UPDATE users SET name=$1, email=$2 WHERE id=$3` run by `db.Exec`.  The parameters
are read in order.  The statement is atomic: when a changed row would collide with
another row under a declared constraint the statement fails and no row is changed. -/
def Store.execUpdate (db : Store) (name email id : String) : Except GoError Result × Store :=
  match db.down with
  | some e => (.error (.other e), db)
  | none =>
    if textOk name && textOk email then
      match db.parseId id with
      | .error e => (.error (.other e), db)
      | .ok n =>
        let new : Row := { id := n, name := name, email := email }
        if db.rows.any (fun r => r.id == n) &&
            db.rows.any (fun r => r.id != n && db.conflict new r) then
          (.error (.other (uniqueViolation "users_unique")), db)
        else
          (.ok { affected := db.rows.countP (fun r => r.id == n) },
           { db with rows := db.rows.map (fun r => if r.id == n then new else r) })
    else (.error (.other invalidByte), db)

/-- `DELETE FROM users WHERE id=$1` run by `db.Exec`. -/
def Store.execDelete (db : Store) (id : String) : Except GoError Result × Store :=
  match db.down with
  | some e => (.error (.other e), db)
  | none =>
    match db.parseId id with
    | .error e => (.error (.other e), db)
    | .ok n =>
      (.ok { affected := db.rows.countP (fun r => r.id == n) },
       { db with rows := db.rows.filter (fun r => r.id != n) })

/-! ## The handlers

Bodies built from `gin.H` and `map[string]interface{}` are Go maps; `encoding/json`
writes the keys of a map in sorted order, and the objects below list them so. -/

/-- Lines 60-83: `statusCheck`. -/
def statusCheck (db : Store) : Response :=
  let state : Bool × Slice String :=
    match db.Ping with
    | some _ => (false, Slice.append none "Database connection failed")
    | none => (true, none)
  let response : statusResponse :=
    { Alive := state.1
      Application := "My Management System"
      Email := "jkpodo05@gmail.com"
      Version := "1.0.0"
      Errors := state.2
      Environment := "staging" }
  { status := StatusOK, body := response.marshal }

/-- Lines 85-115: `createUser`.  `bound` is the outcome of `c.ShouldBindJSON(&user)`:
the decoded body, or the binding error. -/
def createUser (db : Store) (bound : Except String User) : Response × Store :=
  match bound with
  | .error _ =>
    ({ status := StatusBadRequest, body := .obj [("error", .str "Invalid input")] }, db)
  | .ok user =>
    match db.selectIdByNameOrEmail user.Name user.Email with
    | .error (.other e) =>
      ({ status := StatusInternalServerError,
         body := .obj [("error", .str ("Database error: " ++ e))] }, db)
    | scanned =>
      -- `var existingUserID int` keeps its zero value when `Scan` reports `sql.ErrNoRows`
      let existingUserID : Int :=
        match scanned with
        | .ok id => id
        | .error _ => 0
      if existingUserID != 0 then
        ({ status := StatusConflict,
           body := .obj [("error", .str "User with this name or email already exists")] }, db)
      else
        match db.insertReturningId user.Name user.Email with
        | (.error err, db1) =>
          ({ status := StatusInternalServerError,
             body := .obj [("error", .str err.Error)] }, db1)
        | (.ok lastInsertID, db1) =>
          ({ status := StatusOK,
             body := .obj [("message", .str "User created successfully"),
                           ("user_id", .int lastInsertID)] }, db1)

/-- Lines 126-140: the `for rows.Next()` loop of `getAllUsers`, appending one map per row.
The columns are an integer and two texts, so `rows.Scan` into `int, string, string`
does not fail. -/
def scanUsers : List Row → Slice JObj → Slice JObj
  | [], users => users
  | r :: rest, users =>
    let user : JObj := [("email", .str r.email), ("id", .int r.id), ("name", .str r.name)]
    scanUsers rest (Slice.append users user)

/-- Lines 117-149: `getAllUsers`.  A broken connection shows at `db.Query`; once the rows
are returned the iteration reports no further error (`rows.Err()` is nil). -/
def getAllUsers (db : Store) : Response :=
  match db.selectAll with
  | .error err =>
    { status := StatusInternalServerError, body := .obj [("error", .str err.Error)] }
  | .ok rows =>
    -- `var users []map[string]interface{}` starts as the nil slice
    let users : Slice JObj := scanUsers rows none
    { status := StatusOK, body := marshalMaps users }

/-- Lines 151-172: `getUser`.  `id` is `c.Param("id")`; `Scan(&id, ..)` overwrites that
string variable with the decimal text of the row's id. -/
def getUser (db : Store) (id : String) : Response :=
  match db.selectById id with
  | .error .ErrNoRows =>
    { status := StatusNotFound, body := .obj [("message", .str "User not found")] }
  | .error err =>
    { status := StatusInternalServerError, body := .obj [("error", .str err.Error)] }
  | .ok row =>
    let id : String := toString row.id
    { status := StatusOK,
      body := .obj [("email", .str row.email), ("id", .str id), ("name", .str row.name)] }

/-- Lines 174-204: `updateUser`.  `bound` is the outcome of `c.BindJSON(&user)`. -/
def updateUser (db : Store) (id : String) (bound : Except String User) : Response × Store :=
  match bound with
  | .error e =>
    ({ status := StatusBadRequest, body := .obj [("error", .str e)] }, db)
  | .ok user =>
    match db.execUpdate user.Name user.Email id with
    | (.error err, db1) =>
      if stringsContains err.Error "unique constraint" then
        ({ status := StatusConflict,
           body := .obj [("message", .str "User with this name or email already exists")] }, db1)
      else
        ({ status := StatusInternalServerError, body := .obj [("error", .str err.Error)] }, db1)
    | (.ok result, db1) =>
      match result.RowsAffected with
      | .error err =>
        ({ status := StatusInternalServerError, body := .obj [("error", .str err.Error)] }, db1)
      | .ok rowsAffected =>
        if rowsAffected == 0 then
          ({ status := StatusNotFound, body := .obj [("message", .str "User not found")] }, db1)
        else
          ({ status := StatusOK,
             body := (ResponseMessage.mk "User updated successfully").marshal }, db1)

/-- Lines 206-227: `deleteUser`. -/
def deleteUser (db : Store) (id : String) : Response × Store :=
  match db.execDelete id with
  | (.error err, db1) =>
    ({ status := StatusInternalServerError, body := .obj [("error", .str err.Error)] }, db1)
  | (.ok result, db1) =>
    match result.RowsAffected with
    | .error err =>
      ({ status := StatusInternalServerError, body := .obj [("error", .str err.Error)] }, db1)
    | .ok rowsAffected =>
      if rowsAffected == 0 then
        ({ status := StatusNotFound, body := .obj [("message", .str "User not found")] }, db1)
      else
        ({ status := StatusOK,
           body := (ResponseMessage.mk "User deleted successfully").marshal }, db1)

/-! ## Valid store states -/

/-- The invariant of the `users` table: every id was handed out by the sequence (so it
is positive and not beyond the sequence's last value), `id` is a primary key (no two
rows share an id), and the sequence has not left the column's type.  It holds of the
empty store and every handler keeps it. -/
def Store.Valid (db : Store) : Prop :=
  (∀ r ∈ db.rows, 0 < r.id ∧ r.id ≤ (db.seq : Int)) ∧
    (db.rows.map (fun r => r.id)).Nodup ∧ db.seq ≤ db.idType.max

instance (db : Store) : Decidable db.Valid := by
  unfold Store.Valid
  infer_instance

/-- The object `getAllUsers` appends for a row. -/
def userEntry (r : Row) : JObj :=
  [("email", .str r.email), ("id", .int r.id), ("name", .str r.name)]

/-! ## Sequences of calls -/

/-- One event at the service: a request routed to a writing handler (lines 47-51), or the
connection to the store breaking or coming back. -/
inductive Call where
  | create (bound : Except String User)
  | update (id : String) (bound : Except String User)
  | delete (id : String)
  | connection (down : Option String)

/-- The store after one event. -/
def Call.run (db : Store) : Call → Store
  | .create bound => (createUser db bound).2
  | .update id bound => (updateUser db id bound).2
  | .delete id => (deleteUser db id).2
  | .connection down => { db with down := down }

/-- The store after a sequence of events. -/
def runCalls (db : Store) (calls : List Call) : Store :=
  calls.foldl Call.run db

/-! ## Sample stores -/

/-- An empty, reachable store without further uniqueness constraints. -/
def emptyStore : Store :=
  { rows := [], seq := 0, idType := .integer, uniqueName := false, uniqueEmail := false,
    uniquePair := false, down := none }

/-- A reachable store with two users and a uniqueness constraint on `name`. -/
def twoUsers : Store :=
  { rows := [⟨1, "ama", "ama@x.io"⟩, ⟨2, "kofi", "kofi@x.io"⟩], seq := 2,
    idType := .integer, uniqueName := true, uniqueEmail := false, uniquePair := false,
    down := none }

/-- The two-user store with the connection broken. -/
def twoUsersDown : Store :=
  { twoUsers with down := some "dial tcp 127.0.0.1:5432: connect: connection refused" }

/-- The two-user store with the id sequence at the last value of its type. -/
def twoUsersExhausted : Store :=
  { twoUsers with seq := 2147483647 }

/-- A name that holds a zero byte. -/
def nulName : String :=
  String.mk ['e', 's', 'i', Char.ofNat 0]

/-! ## Facts about the store statements -/

theorem find_none_of_no_id (rows : List Row) (n : Int) (h : ∀ r ∈ rows, r.id ≠ n) :
    rows.find? (fun r => r.id == n) = none := by
  rw [List.find?_eq_none]
  intro r hr
  simpa using h r hr

theorem countP_zero_of_no_id (rows : List Row) (n : Int) (h : ∀ r ∈ rows, r.id ≠ n) :
    rows.countP (fun r => r.id == n) = 0 := by
  rw [List.countP_eq_zero]
  intro r hr
  simpa using h r hr

theorem any_false_of_no_id (rows : List Row) (n : Int) (h : ∀ r ∈ rows, r.id ≠ n) :
    rows.any (fun r => r.id == n) = false := by
  rw [List.any_eq_false]
  intro r hr
  simpa using h r hr

theorem find_of_mem_nodup (rows : List Row) (r : Row) (hr : r ∈ rows)
    (hnd : (rows.map (fun r => r.id)).Nodup) :
    rows.find? (fun x => x.id == r.id) = some r := by
  induction rows with
  | nil => cases hr
  | cons x rest ih =>
    rw [List.map_cons, List.nodup_cons] at hnd
    rcases List.mem_cons.1 hr with hx | hx
    · subst hx
      simp [List.find?_cons]
    · have hne : x.id ≠ r.id := by
        intro he
        exact hnd.1 (he ▸ List.mem_map_of_mem (fun r => r.id) hx)
      have hb : (x.id == r.id) = false := by simpa using hne
      rw [List.find?_cons, hb]
      exact ih hx hnd.2

theorem find_after_update (rows : List Row) (n : Int) (name email : String)
    (hex : ∃ r ∈ rows, r.id = n) :
    (rows.map (fun r => if r.id == n then (⟨n, name, email⟩ : Row) else r)).find?
      (fun r => r.id == n) = some ⟨n, name, email⟩ := by
  induction rows with
  | nil => rcases hex with ⟨r, hr, _⟩; cases hr
  | cons x rest ih =>
    by_cases hx : x.id = n
    · simp [List.find?_cons, hx]
    · have hb : (x.id == n) = false := by simpa using hx
      rcases hex with ⟨r, hr, hrn⟩
      have hr2 : r ∈ rest := by
        rcases List.mem_cons.1 hr with h | h
        · subst h; exact absurd hrn hx
        · exact h
      simp only [List.map_cons, hb, Bool.false_eq_true, if_false, List.find?_cons]
      exact ih ⟨r, hr2, hrn⟩

theorem map_update_ids (rows : List Row) (n : Int) (name email : String) :
    (rows.map (fun r => if r.id == n then (⟨n, name, email⟩ : Row) else r)).map (fun r => r.id)
      = rows.map (fun r => r.id) := by
  induction rows with
  | nil => rfl
  | cons r rest ih =>
    simp only [List.map_cons, ih]
    by_cases hr : r.id = n
    · simp [hr]
    · simp [hr]

theorem execUpdate_store (db : Store) (name email id : String) :
    (db.execUpdate name email id).2 = db ∨
      ∃ n, db.parseId id = .ok n ∧ db.down = none ∧ (db.execUpdate name email id).2 =
        { db with
          rows := db.rows.map (fun r => if r.id == n then (⟨n, name, email⟩ : Row) else r) } := by
  unfold Store.execUpdate
  cases hd : db.down with
  | some e => exact Or.inl rfl
  | none =>
    simp only
    split_ifs with ht
    · cases hp : db.parseId id with
      | error e => exact Or.inl rfl
      | ok n =>
        simp only
        split_ifs
        · exact Or.inl rfl
        · exact Or.inr ⟨n, by trivial, by trivial, rfl⟩
    · exact Or.inl rfl

theorem execUpdate_error_store (db db1 : Store) (name email id : String) (err : GoError)
    (h : db.execUpdate name email id = (.error err, db1)) : db1 = db := by
  revert h
  unfold Store.execUpdate
  rcases Option.eq_none_or_eq_some db.down with hd | ⟨e, hd⟩
  · simp only [hd]
    split_ifs with ht
    · cases hp : db.parseId id with
      | error e =>
        simp only
        intro h
        exact (Prod.mk.inj h).2.symm
      | ok n =>
        simp only
        split_ifs
        · intro h
          exact (Prod.mk.inj h).2.symm
        · intro h
          simp at h
    · intro h
      exact (Prod.mk.inj h).2.symm
  · simp only [hd]
    intro h
    exact (Prod.mk.inj h).2.symm

theorem execDelete_store (db : Store) (id : String) :
    (db.execDelete id).2 = db ∨
      ∃ n, db.parseId id = .ok n ∧ db.down = none ∧ (db.execDelete id).2 =
        { db with rows := db.rows.filter (fun r => r.id != n) } := by
  unfold Store.execDelete
  cases hd : db.down with
  | some e => exact Or.inl rfl
  | none =>
    cases hp : db.parseId id with
    | error e => exact Or.inl rfl
    | ok n => exact Or.inr ⟨n, rfl, rfl, rfl⟩

theorem unique_text_marked :
    stringsContains (GoError.other (uniqueViolation "users_unique")).Error "unique constraint"
      = true := by
  decide

/-! ## Decimal text of an id -/

theorem digitChar_digit (k : Nat) (hk : k < 10) :
    isDigitChar (Nat.digitChar k) = true ∧ (Nat.digitChar k).toNat - 48 = k := by
  interval_cases k <;> decide

theorem parseDigits_toDigitsCore (fuel : Nat) :
    ∀ (n : Nat) (ds : List Char), n < fuel →
      parseDigits (Nat.toDigitsCore 10 fuel n ds) 0 = parseDigits ds n := by
  induction fuel with
  | zero => intro n ds h; omega
  | succ fuel ih =>
    intro n ds h
    have hd := digitChar_digit (n % 10) (Nat.mod_lt n (by decide))
    unfold Nat.toDigitsCore
    simp only
    split_ifs with h0
    · have hn : n % 10 = n := by omega
      simp only [parseDigits, hd.1, if_true, hd.2, Nat.mul_zero, Nat.zero_add]
      rw [hn]
    · rw [ih (n / 10) _ (by omega)]
      simp only [parseDigits, hd.1, if_true, hd.2]
      congr 1
      omega

theorem toDigitsCore_digits (fuel : Nat) :
    ∀ (n : Nat) (ds : List Char), (∀ c ∈ ds, isDigitChar c = true) →
      ∀ c ∈ Nat.toDigitsCore 10 fuel n ds, isDigitChar c = true := by
  induction fuel with
  | zero => intro n ds h; simpa [Nat.toDigitsCore] using h
  | succ fuel ih =>
    intro n ds h
    have hd := (digitChar_digit (n % 10) (Nat.mod_lt n (by decide))).1
    have hcons : ∀ c ∈ Nat.digitChar (n % 10) :: ds, isDigitChar c = true := by
      intro c hc
      rcases List.mem_cons.1 hc with h1 | h1
      · rw [h1]; exact hd
      · exact h c h1
    unfold Nat.toDigitsCore
    simp only
    split_ifs
    · exact hcons
    · exact ih _ _ hcons

theorem toDigitsCore_ne_nil (fuel : Nat) :
    ∀ (n : Nat) (ds : List Char), ds ≠ [] → Nat.toDigitsCore 10 fuel n ds ≠ [] := by
  induction fuel with
  | zero => intro n ds h; simpa [Nat.toDigitsCore] using h
  | succ fuel ih =>
    intro n ds _
    unfold Nat.toDigitsCore
    simp only
    split_ifs
    · simp
    · exact ih _ _ (by simp)

theorem toDigits_ne_nil (n : Nat) : Nat.toDigits 10 n ≠ [] := by
  unfold Nat.toDigits Nat.toDigitsCore
  simp only
  split_ifs
  · simp
  · exact toDigitsCore_ne_nil _ _ _ (by simp)

theorem digit_not_blank (c : Char) (hc : isDigitChar c = true) : isBlank c = false := by
  unfold isDigitChar at hc
  unfold isBlank
  simp only [Bool.and_eq_true, decide_eq_true_eq] at hc
  have h1 : ¬ c.toNat = 32 := by omega
  have h2 : ¬ c.toNat ≤ 13 := by omega
  simp [h1, h2]

theorem textOk_of_digits (s : String) (h : ∀ c ∈ s.data, isDigitChar c = true) :
    textOk s = true := by
  unfold textOk
  rw [List.all_eq_true]
  intro c hc
  have := h c hc
  unfold isDigitChar at this
  simp only [Bool.and_eq_true, decide_eq_true_eq] at this
  have h0 : ¬ c.toNat = 0 := by omega
  simp [h0]

theorem parseInt_of_digits (s : String) (k : Nat) (hne : s.data ≠ [])
    (hdig : ∀ c ∈ s.data, isDigitChar c = true)
    (h : parseDigits s.data 0 = some k) : parseInt s = some (k : Int) := by
  unfold parseInt
  cases hs : s.data with
  | nil => exact absurd hs hne
  | cons c cs =>
    rw [hs] at h hdig
    have hc : isDigitChar c = true := hdig c (List.mem_cons_self c cs)
    have hb : isBlank c = false := digit_not_blank c hc
    have h1 : c ≠ '-' := by
      intro hc1; rw [hc1] at hc; exact absurd hc (by decide)
    have h2 : c ≠ '+' := by
      intro hc1; rw [hc1] at hc; exact absurd hc (by decide)
    simp only [List.dropWhile_cons, hb, Bool.false_eq_true, if_false, h1, h2, parseNumeral, hc,
      if_true, h, Option.map_some']
    rfl

/-- The decimal text of a natural number within the column's type is read back by the
store as that number. -/
theorem parseId_toString (db : Store) (n : Nat) (hn : n ≤ db.idType.max) :
    db.parseId (toString ((n : Nat) : Int)) = .ok (n : Int) := by
  have hs : toString ((n : Nat) : Int) = String.mk (Nat.toDigits 10 n) := rfl
  have hdig : ∀ c ∈ (String.mk (Nat.toDigits 10 n)).data, isDigitChar c = true :=
    toDigitsCore_digits (n + 1) n [] (by simp)
  have hparse : parseInt (String.mk (Nat.toDigits 10 n)) = some (n : Int) := by
    apply parseInt_of_digits _ _ (toDigits_ne_nil n) hdig
    show parseDigits (Nat.toDigitsCore 10 (n + 1) n []) 0 = some n
    rw [parseDigits_toDigitsCore (n + 1) n [] (by omega)]
    rfl
  have hrange : -(db.idType.max : Int) - 1 ≤ (n : Int) ∧ (n : Int) ≤ (db.idType.max : Int) := by
    constructor <;> omega
  rw [hs]
  unfold Store.parseId
  simp only [textOk_of_digits _ hdig, if_true, hparse, hrange, and_self]

/-! ## The handlers, case by case -/

theorem createUser_fresh (db : Store) (user : User) (hup : db.down = none)
    (htn : textOk user.Name = true) (hte : textOk user.Email = true)
    (hmax : db.seq + 1 ≤ db.idType.max)
    (hseq : ∀ r ∈ db.rows, r.id ≠ (db.seq : Int) + 1)
    (hnew : ∀ r ∈ db.rows, r.name ≠ user.Name ∧ r.email ≠ user.Email) :
    createUser db (.ok user) =
      ({ status := StatusOK,
         body := .obj [("message", .str "User created successfully"),
                       ("user_id", .int ((db.seq : Int) + 1))] },
       { db with seq := db.seq + 1,
                 rows := db.rows ++ [⟨(db.seq : Int) + 1, user.Name, user.Email⟩] }) := by
  have hfind : db.rows.find? (fun r => r.name == user.Name || r.email == user.Email) = none := by
    rw [List.find?_eq_none]
    intro r hr
    have := hnew r hr
    simp [this.1, this.2]
  have hpk : db.rows.any (fun r => r.id == (db.seq : Int) + 1) = false :=
    any_false_of_no_id db.rows _ hseq
  have hcf : db.rows.any
      (fun r => db.conflict ⟨(db.seq : Int) + 1, user.Name, user.Email⟩ r) = false := by
    rw [List.any_eq_false]
    intro r hr
    have := hnew r hr
    have h1 : ¬ user.Name = r.name := fun h => this.1 h.symm
    have h2 : ¬ user.Email = r.email := fun h => this.2 h.symm
    simp [Store.conflict, h1, h2]
  simp [createUser, Store.selectIdByNameOrEmail, Store.insertReturningId, hup, htn, hte, hmax,
    hfind, hpk, hcf]

theorem createUser_ok_inv (db : Store) (user : User)
    (h : (createUser db (.ok user)).1.status = StatusOK) :
    db.down = none ∧ textOk user.Name = true ∧ textOk user.Email = true ∧
      createUser db (.ok user) =
        ({ status := StatusOK,
           body := .obj [("message", .str "User created successfully"),
                         ("user_id", .int ((db.seq : Int) + 1))] },
         { db with seq := db.seq + 1,
                   rows := db.rows ++ [⟨(db.seq : Int) + 1, user.Name, user.Email⟩] }) := by
  rcases Option.eq_none_or_eq_some db.down with hd | ⟨e, hd⟩
  · by_cases ht : (textOk user.Name && textOk user.Email) = true
    · have ht2 := Bool.and_eq_true_iff.1 ht
      refine ⟨hd, ht2.1, ht2.2, ?_⟩
      revert h
      unfold createUser Store.selectIdByNameOrEmail Store.insertReturningId
      simp only [hd, ht, if_true]
      split
      · intro h; simp at h
      · split
        · intro h; simp at h
        · split_ifs
          · intro h; simp at h
          · intro h; simp at h
          · intro _; rfl
          · intro h; simp at h
    · exfalso
      revert h
      unfold createUser Store.selectIdByNameOrEmail
      simp [hd, ht]
  · exfalso
    revert h
    unfold createUser Store.selectIdByNameOrEmail
    simp [hd]

theorem createUser_existing (db : Store) (user : User) (hup : db.down = none)
    (htn : textOk user.Name = true) (hte : textOk user.Email = true)
    (hids : ∀ r ∈ db.rows, r.id ≠ 0)
    (hex : ∃ r ∈ db.rows, r.name = user.Name ∨ r.email = user.Email) :
    createUser db (.ok user) =
      ({ status := StatusConflict,
         body := .obj [("error", .str "User with this name or email already exists")] }, db) := by
  cases hfind : db.rows.find? (fun r => r.name == user.Name || r.email == user.Email) with
  | none =>
    rw [List.find?_eq_none] at hfind
    rcases hex with ⟨r, hr, hm⟩
    have := hfind r hr
    simp at this
    rcases hm with hm | hm
    · exact absurd hm this.1
    · exact absurd hm this.2
  | some r =>
    have hr : r ∈ db.rows := List.mem_of_find?_eq_some hfind
    have hne : r.id ≠ 0 := hids r hr
    simp [createUser, Store.selectIdByNameOrEmail, hup, htn, hte, hfind, hne]

theorem getUser_found (db : Store) (id : String) (n : Int) (r : Row) (hup : db.down = none)
    (hid : db.parseId id = .ok n) (hfind : db.rows.find? (fun r => r.id == n) = some r) :
    getUser db id =
      { status := StatusOK,
        body := .obj [("email", .str r.email), ("id", .str (toString r.id)),
                      ("name", .str r.name)] } := by
  simp [getUser, Store.selectById, hup, hid, hfind]

/-- A path parameter the store cannot read as an id of the column's type makes the
statement fail; `getUser` answers 500 with the store's error text. -/
theorem getUser_unreadable (db : Store) (id e : String) (hup : db.down = none)
    (hid : db.parseId id = .error e) :
    getUser db id =
      { status := StatusInternalServerError, body := .obj [("error", .str e)] } := by
  simp [getUser, Store.selectById, hup, hid, GoError.Error]

theorem scanUsers_cons (rows : List Row) :
    ∀ (r : Row) (users : Slice JObj),
      scanUsers (r :: rows) users = some (users.getD [] ++ (r :: rows).map userEntry) := by
  induction rows with
  | nil => intro r users; rfl
  | cons x rest ih =>
    intro r users
    have h1 : scanUsers (r :: x :: rest) users
        = scanUsers (x :: rest) (Slice.append users (userEntry r)) := rfl
    rw [h1, ih]
    simp [Slice.append]

theorem getAllUsers_nonempty (db : Store) (hup : db.down = none) (hne : db.rows ≠ []) :
    getAllUsers db = { status := StatusOK, body := .arr (db.rows.map userEntry) } := by
  cases hrows : db.rows with
  | nil => exact absurd hrows hne
  | cons r rest =>
    simp [getAllUsers, Store.selectAll, hup, hrows, scanUsers_cons, marshalMaps]

theorem updateUser_store (db : Store) (id : String) (user : User) :
    (updateUser db id (.ok user)).2 = (db.execUpdate user.Name user.Email id).2 := by
  unfold updateUser
  simp only
  rcases db.execUpdate user.Name user.Email id with ⟨err | res, db1⟩
  · simp only; split_ifs <;> rfl
  · simp only [Result.RowsAffected]; split_ifs <;> rfl

theorem updateUser_reachable (db : Store) (id : String) (n : Int) (user : User)
    (hup : db.down = none) (htn : textOk user.Name = true) (hte : textOk user.Email = true)
    (hid : db.parseId id = .ok n) :
    updateUser db id (.ok user) =
      if (db.rows.any (fun r => r.id == n) &&
          db.rows.any (fun r => r.id != n && db.conflict ⟨n, user.Name, user.Email⟩ r)) = true then
        ({ status := StatusConflict,
           body := .obj [("message", .str "User with this name or email already exists")] }, db)
      else if db.rows.countP (fun r => r.id == n) = 0 then
        ({ status := StatusNotFound, body := .obj [("message", .str "User not found")] },
         { db with
           rows := db.rows.map
             (fun r => if r.id == n then (⟨n, user.Name, user.Email⟩ : Row) else r) })
      else
        ({ status := StatusOK, body := .obj [("message", .str "User updated successfully")] },
         { db with
           rows := db.rows.map
             (fun r => if r.id == n then (⟨n, user.Name, user.Email⟩ : Row) else r) }) := by
  unfold updateUser Store.execUpdate
  simp only [hup, htn, hte, Bool.and_self, if_true, hid]
  by_cases hc : (db.rows.any (fun r => r.id == n) &&
      db.rows.any (fun r => r.id != n && db.conflict ⟨n, user.Name, user.Email⟩ r)) = true
  · rw [if_pos hc, if_pos hc]
    simp only [unique_text_marked, if_true]
  · rw [if_neg hc, if_neg hc]
    simp only [Result.RowsAffected]
    by_cases h0 : db.rows.countP (fun r => r.id == n) = 0
    · rw [if_pos h0]
      simp [h0]
    · rw [if_neg h0]
      have : ¬ ((db.rows.countP (fun r => r.id == n) : Int) = 0) := by
        intro h; exact h0 (by exact_mod_cast h)
      simp only [beq_iff_eq, this, if_false]
      rfl

theorem updateUser_unreachable (db : Store) (id : String) (user : User) (e : String)
    (hd : db.down = some e) :
    updateUser db id (.ok user) =
      if stringsContains e "unique constraint" = true then
        ({ status := StatusConflict,
           body := .obj [("message", .str "User with this name or email already exists")] }, db)
      else ({ status := StatusInternalServerError, body := .obj [("error", .str e)] }, db) := by
  unfold updateUser Store.execUpdate
  simp only [hd, GoError.Error]

theorem updateUser_bad_text (db : Store) (id : String) (user : User) (hup : db.down = none)
    (ht : ¬ (textOk user.Name && textOk user.Email) = true) :
    updateUser db id (.ok user) =
      ({ status := StatusInternalServerError, body := .obj [("error", .str invalidByte)] },
       db) := by
  have hm : stringsContains invalidByte "unique constraint" = false := by decide
  unfold updateUser Store.execUpdate
  simp [hup, ht, GoError.Error, hm]

theorem updateUser_ok_inv (db : Store) (id : String) (n : Int) (user : User)
    (hid : db.parseId id = .ok n) (h : (updateUser db id (.ok user)).1.status = StatusOK) :
    db.down = none ∧ textOk user.Name = true ∧ textOk user.Email = true ∧
      (∃ r ∈ db.rows, r.id = n) ∧
      (updateUser db id (.ok user)).2 =
        { db with
          rows := db.rows.map
            (fun r => if r.id == n then (⟨n, user.Name, user.Email⟩ : Row) else r) } := by
  rcases Option.eq_none_or_eq_some db.down with hd | ⟨e, hd⟩
  · by_cases ht : (textOk user.Name && textOk user.Email) = true
    · have ht2 := Bool.and_eq_true_iff.1 ht
      rw [updateUser_reachable db id n user hd ht2.1 ht2.2 hid] at h ⊢
      split_ifs at h ⊢ with h1 h2
      · simp at h
      · simp at h
      · refine ⟨hd, ht2.1, ht2.2, ?_, rfl⟩
        by_contra hno
        apply h2
        apply countP_zero_of_no_id
        intro r hr he
        exact hno ⟨r, hr, he⟩
    · exfalso
      rw [updateUser_bad_text db id user hd ht] at h
      simp at h
  · exfalso
    rw [updateUser_unreachable db id user e hd] at h
    split_ifs at h <;> simp at h

theorem updateUser_ok_rows (db : Store) (id : String) (n : Int) (user : User)
    (hid : db.parseId id = .ok n) (h : (updateUser db id (.ok user)).1.status = StatusOK) :
    (updateUser db id (.ok user)).2.rows =
      db.rows.map (fun r => if r.id = n then (⟨n, user.Name, user.Email⟩ : Row) else r) := by
  rw [(updateUser_ok_inv db id n user hid h).2.2.2.2]
  show db.rows.map (fun r => if r.id == n then (⟨n, user.Name, user.Email⟩ : Row) else r) = _
  apply List.map_congr_left
  intro r _
  by_cases hr : r.id = n <;> simp [hr]

theorem deleteUser_store (db : Store) (id : String) :
    (deleteUser db id).2 = (db.execDelete id).2 := by
  unfold deleteUser
  rcases db.execDelete id with ⟨err | res, db1⟩
  · rfl
  · simp only [Result.RowsAffected]; split_ifs <;> rfl

/-! ## The invariant is kept -/

theorem valid_emptyStore : emptyStore.Valid := by decide

/-- A store without rows whose sequence lies within the column's type is valid. -/
theorem valid_of_no_rows (db : Store) (h : db.rows = []) (hseq : db.seq ≤ db.idType.max) :
    db.Valid := by
  refine ⟨?_, ?_, hseq⟩
  · intro r hr
    rw [h] at hr
    cases hr
  · rw [h]
    exact List.nodup_nil

theorem valid_bump (db : Store) (h : db.Valid) (hmax : db.seq + 1 ≤ db.idType.max) :
    Store.Valid { db with seq := db.seq + 1 } := by
  refine ⟨fun r hr => ?_, h.2.1, hmax⟩
  have := h.1 r hr
  constructor
  · exact this.1
  · show r.id ≤ ((db.seq + 1 : Nat) : Int)
    push_cast
    omega

theorem valid_insert (db : Store) (name email : String) (h : db.Valid)
    (hmax : db.seq + 1 ≤ db.idType.max) :
    Store.Valid { db with seq := db.seq + 1,
                          rows := db.rows ++ [⟨(db.seq : Int) + 1, name, email⟩] } := by
  refine ⟨?_, ?_, hmax⟩
  · intro r hr
    show 0 < r.id ∧ r.id ≤ ((db.seq + 1 : Nat) : Int)
    push_cast
    have hr2 : r ∈ db.rows ++ [⟨(db.seq : Int) + 1, name, email⟩] := hr
    rcases List.mem_append.1 hr2 with hr1 | hr1
    · have := h.1 r hr1
      omega
    · have hr3 : r = ⟨(db.seq : Int) + 1, name, email⟩ := by simpa using hr1
      subst hr3
      show 0 < (db.seq : Int) + 1 ∧ (db.seq : Int) + 1 ≤ (db.seq : Int) + 1
      omega
  · show ((db.rows ++ [(⟨(db.seq : Int) + 1, name, email⟩ : Row)]).map (fun r => r.id)).Nodup
    rw [List.map_append, List.nodup_append]
    refine ⟨h.2.1, by simp, ?_⟩
    intro a ha hb
    have hb2 : a = (db.seq : Int) + 1 := by simpa using hb
    rcases List.mem_map.1 ha with ⟨r, hr, rfl⟩
    have := h.1 r hr
    omega

theorem insertReturningId_keeps_valid (db : Store) (name email : String) (h : db.Valid) :
    (db.insertReturningId name email).2.Valid := by
  unfold Store.insertReturningId
  cases hd : db.down with
  | some e => exact h
  | none =>
    simp only
    split_ifs with ht hmax
    · exact valid_bump db h hmax
    · exact valid_bump db h hmax
    · exact valid_insert db _ _ h hmax
    · exact h
    · exact h

theorem createUser_store (db : Store) (user : User) :
    (createUser db (.ok user)).2 = db ∨
      (createUser db (.ok user)).2 = (db.insertReturningId user.Name user.Email).2 := by
  unfold createUser
  simp only
  split
  · exact Or.inl rfl
  · split
    · exact Or.inl rfl
    · right
      rcases db.insertReturningId user.Name user.Email with ⟨err | id, db1⟩ <;> rfl

theorem createUser_keeps_valid (db : Store) (bound : Except String User) (h : db.Valid) :
    (createUser db bound).2.Valid := by
  cases bound with
  | error e => exact h
  | ok user =>
    rcases createUser_store db user with h1 | h1
    · rw [h1]; exact h
    · rw [h1]; exact insertReturningId_keeps_valid db _ _ h

theorem valid_update (db : Store) (n : Int) (name email : String) (h : db.Valid) :
    Store.Valid
      { db with
        rows := db.rows.map (fun r => if r.id == n then (⟨n, name, email⟩ : Row) else r) } := by
  refine ⟨?_, ?_, h.2.2⟩
  · intro r hr
    have hr2 : r ∈ db.rows.map (fun r => if r.id == n then (⟨n, name, email⟩ : Row) else r) := hr
    rcases List.mem_map.1 hr2 with ⟨r0, hr0, rfl⟩
    have := h.1 r0 hr0
    by_cases hid : r0.id = n
    · simp only [hid, beq_self_eq_true, if_true]
      show 0 < n ∧ n ≤ (db.seq : Int)
      rw [← hid]; exact this
    · have hb : (r0.id == n) = false := by simpa using hid
      simp only [hb]
      exact this
  · show ((db.rows.map (fun r => if r.id == n then (⟨n, name, email⟩ : Row) else r)).map
      (fun r => r.id)).Nodup
    rw [map_update_ids]
    exact h.2.1

theorem updateUser_keeps_valid (db : Store) (id : String) (bound : Except String User)
    (h : db.Valid) : (updateUser db id bound).2.Valid := by
  cases bound with
  | error e => exact h
  | ok user =>
    rw [updateUser_store]
    rcases execUpdate_store db user.Name user.Email id with h1 | ⟨n, _, _, h1⟩
    · rw [h1]; exact h
    · rw [h1]; exact valid_update db n user.Name user.Email h

theorem valid_delete (db : Store) (n : Int) (h : db.Valid) :
    Store.Valid { db with rows := db.rows.filter (fun r => r.id != n) } := by
  refine ⟨?_, ?_, h.2.2⟩
  · intro r hr
    have hr2 : r ∈ db.rows.filter (fun r => r.id != n) := hr
    exact h.1 r (List.mem_filter.1 hr2).1
  · show ((db.rows.filter (fun r => r.id != n)).map (fun r => r.id)).Nodup
    exact (List.filter_sublist db.rows).map (fun r => r.id) |>.nodup h.2.1

theorem deleteUser_keeps_valid (db : Store) (id : String) (h : db.Valid) :
    (deleteUser db id).2.Valid := by
  rw [deleteUser_store]
  rcases execDelete_store db id with h1 | ⟨n, _, _, h1⟩
  · rw [h1]; exact h
  · rw [h1]; exact valid_delete db n h

/-- Every sequence of calls keeps a store valid: the states the service reaches from an
empty table are valid. -/
theorem runCalls_valid (calls : List Call) :
    ∀ db : Store, db.Valid → (runCalls db calls).Valid := by
  induction calls with
  | nil => intro db h; exact h
  | cons c rest ih =>
    intro db h
    apply ih
    cases c with
    | create bound => exact createUser_keeps_valid db bound h
    | update id bound => exact updateUser_keeps_valid db id bound h
    | delete id => exact deleteUser_keeps_valid db id h
    | connection down => exact h

/-- A valid row id is read back by the store from its decimal text. -/
theorem parseId_toString_row (db : Store) (r : Row) (hv : db.Valid) (hr : r ∈ db.rows) :
    db.parseId (toString r.id) = .ok r.id := by
  have hb := hv.1 r hr
  have hcast : r.id = ((r.id.toNat : Nat) : Int) := by omega
  have hle : r.id.toNat ≤ db.idType.max := by
    have := hv.2.2
    omega
  rw [hcast]
  exact parseId_toString db r.id.toNat hle

/-! ## Claims -/

/-- C1 as written fails: a decoded body with empty name and empty email is accepted,
answered 200, and its row is inserted. -/
theorem createUser_accepts_empty_fields :
    (createUser emptyStore (.ok ⟨"", ""⟩)).1 =
        { status := StatusOK,
          body := .obj [("message", .str "User created successfully"), ("user_id", .int 1)] } ∧
      (createUser emptyStore (.ok ⟨"", ""⟩)).1.status ≠ StatusBadRequest ∧
      (createUser emptyStore (.ok ⟨"", ""⟩)).2.rows = [⟨1, "", ""⟩] ∧
      (createUser emptyStore (.ok ⟨"", ""⟩)).2.rows ≠ emptyStore.rows := by
  decide

/-- C1, amended: a decoded create request whose name or email is empty is handled like
any other decoded request and is never answered 400.  The answer is 200, 409 or 500;
with 200 exactly the submitted row is appended under the next id of the sequence, with
409 or 500 the rows are unchanged.  400 is the answer to a body that does not decode,
and then the store is unchanged. -/
theorem createUser_empty_fields_not_rejected (db : Store) (user : User)
    (_hempty : user.Name = "" ∨ user.Email = "") :
    (createUser db (.ok user)).1.status ≠ StatusBadRequest ∧
      ((createUser db (.ok user)).1.status = StatusOK ∨
        (createUser db (.ok user)).1.status = StatusConflict ∨
        (createUser db (.ok user)).1.status = StatusInternalServerError) ∧
      ((createUser db (.ok user)).1.status = StatusOK →
        (createUser db (.ok user)).2.rows =
          db.rows ++ [⟨(db.seq : Int) + 1, user.Name, user.Email⟩]) ∧
      ((createUser db (.ok user)).1.status ≠ StatusOK →
        (createUser db (.ok user)).2.rows = db.rows) ∧
      (∀ e, createUser db (.error e) =
        ({ status := StatusBadRequest, body := .obj [("error", .str "Invalid input")] }, db)) := by
  have key : ((createUser db (.ok user)).1.status = StatusOK ∧
        (createUser db (.ok user)).2.rows =
          db.rows ++ [⟨(db.seq : Int) + 1, user.Name, user.Email⟩]) ∨
      (((createUser db (.ok user)).1.status = StatusConflict ∨
        (createUser db (.ok user)).1.status = StatusInternalServerError) ∧
        (createUser db (.ok user)).2.rows = db.rows) := by
    unfold createUser
    simp only
    split
    · right; exact ⟨Or.inr rfl, rfl⟩
    · split
      · right; exact ⟨Or.inl rfl, rfl⟩
      · unfold Store.insertReturningId
        cases hd : db.down with
        | some e => right; exact ⟨Or.inr rfl, rfl⟩
        | none =>
          simp only
          split_ifs
          · right; exact ⟨Or.inr rfl, rfl⟩
          · right; exact ⟨Or.inr rfl, rfl⟩
          · left; exact ⟨rfl, rfl⟩
          · right; exact ⟨Or.inr rfl, rfl⟩
          · right; exact ⟨Or.inr rfl, rfl⟩
  refine ⟨?_, ?_, ?_, ?_, fun e => rfl⟩
  · rcases key with ⟨h, _⟩ | ⟨h | h, _⟩ <;> rw [h] <;> decide
  · rcases key with ⟨h, _⟩ | ⟨h | h, _⟩
    · exact Or.inl h
    · exact Or.inr (Or.inl h)
    · exact Or.inr (Or.inr h)
  · intro h200
    rcases key with ⟨_, h⟩ | ⟨h | h, _⟩
    · exact h
    · rw [h] at h200; exact absurd h200 (by decide)
    · rw [h] at h200; exact absurd h200 (by decide)
  · intro hne
    rcases key with ⟨h, _⟩ | ⟨_, h⟩
    · exact absurd h hne
    · exact h

/-- Witness for C1, amended: empty name on the two-user store. -/
theorem createUser_empty_fields_not_rejected_witness :
    (createUser twoUsers (.ok ⟨"", "esi@x.io"⟩)).1.status ≠ StatusBadRequest ∧
      (createUser twoUsers (.ok ⟨"", "esi@x.io"⟩)).1.status = StatusOK ∧
      (createUser twoUsers (.ok ⟨"", "esi@x.io"⟩)).2.rows =
        twoUsers.rows ++ [⟨(twoUsers.seq : Int) + 1, "", "esi@x.io"⟩] ∧
      createUser twoUsers (.error "unexpected EOF") =
        ({ status := StatusBadRequest, body := .obj [("error", .str "Invalid input")] },
          twoUsers) :=
  have h := createUser_empty_fields_not_rejected twoUsers ⟨"", "esi@x.io"⟩ (Or.inl rfl)
  ⟨h.1, by decide, h.2.2.1 (by decide), h.2.2.2.2 "unexpected EOF"⟩

/-- C2: on a valid store, when a first `createUser` with a decoded (name, email) answers
200, `createUser` with the same pair on the resulting store answers 409 with body
`{error: "User with this name or email already exists"}` and leaves that store as it is:
no second row is inserted. -/
theorem createUser_twice_conflict (db : Store) (user : User) (hv : db.Valid)
    (h : (createUser db (.ok user)).1.status = StatusOK) :
    createUser (createUser db (.ok user)).2 (.ok user) =
      ({ status := StatusConflict,
         body := .obj [("error", .str "User with this name or email already exists")] },
       (createUser db (.ok user)).2) := by
  obtain ⟨hup, htn, hte, heq⟩ := createUser_ok_inv db user h
  rw [heq]
  apply createUser_existing
  · exact hup
  · exact htn
  · exact hte
  · intro r hr
    have hr2 : r ∈ db.rows ++ [⟨(db.seq : Int) + 1, user.Name, user.Email⟩] := hr
    rcases List.mem_append.1 hr2 with hr1 | hr1
    · have := hv.1 r hr1
      omega
    · have hr3 : r = ⟨(db.seq : Int) + 1, user.Name, user.Email⟩ := by simpa using hr1
      subst hr3
      show (db.seq : Int) + 1 ≠ 0
      omega
  · refine ⟨⟨(db.seq : Int) + 1, user.Name, user.Email⟩, ?_, Or.inl rfl⟩
    show (⟨(db.seq : Int) + 1, user.Name, user.Email⟩ : Row)
      ∈ db.rows ++ [⟨(db.seq : Int) + 1, user.Name, user.Email⟩]
    simp

/-- Witness for C2: creating "esi" twice on the two-user store. -/
theorem createUser_twice_conflict_witness :
    createUser (createUser twoUsers (.ok ⟨"esi", "esi@x.io"⟩)).2 (.ok ⟨"esi", "esi@x.io"⟩) =
      ({ status := StatusConflict,
         body := .obj [("error", .str "User with this name or email already exists")] },
       (createUser twoUsers (.ok ⟨"esi", "esi@x.io"⟩)).2) :=
  createUser_twice_conflict twoUsers ⟨"esi", "esi@x.io"⟩ (by decide) (by decide)

/-- C3 as written fails: on the reachable two-user store the path parameters "abc" and
"99999999999999999999" match no row (the store reads neither as the id of a row), yet
`getUser`, `updateUser` and `deleteUser` answer 500, not 404; so does `updateUser` for the
missing id 7 when the decoded name holds a zero byte. -/
theorem missing_id_answered_500 :
    (∀ r ∈ twoUsers.rows, twoUsers.parseId "abc" ≠ .ok r.id) ∧
      getUser twoUsers "abc" =
        { status := StatusInternalServerError,
          body := .obj [("error", .str (invalidInteger "integer" "abc"))] } ∧
      (updateUser twoUsers "abc" (.ok ⟨"esi", "esi@x.io"⟩)).1.status
        = StatusInternalServerError ∧
      (deleteUser twoUsers "abc").1.status = StatusInternalServerError ∧
      (∀ r ∈ twoUsers.rows, twoUsers.parseId "99999999999999999999" ≠ .ok r.id) ∧
      (getUser twoUsers "99999999999999999999").status = StatusInternalServerError ∧
      (updateUser twoUsers "99999999999999999999" (.ok ⟨"esi", "esi@x.io"⟩)).1.status
        = StatusInternalServerError ∧
      (deleteUser twoUsers "99999999999999999999").1.status = StatusInternalServerError ∧
      (updateUser twoUsers "7" (.ok ⟨nulName, "esi@x.io"⟩)).1.status
        = StatusInternalServerError := by
  decide

/-- C3, amended: on a reachable store, for a path parameter that the store reads as an
integer `n` of the id column's type which no row of `users` carries, `getUser`,
`updateUser` (with a decoded body whose name and email hold no zero byte) and
`deleteUser` each answer 404 with body `{message: "User not found"}`; none of them
answers 500. -/
theorem missing_id_not_found (db : Store) (id : String) (n : Int) (user : User)
    (hup : db.down = none) (hid : db.parseId id = .ok n) (hmiss : ∀ r ∈ db.rows, r.id ≠ n)
    (htn : textOk user.Name = true) (hte : textOk user.Email = true) :
    getUser db id =
        { status := StatusNotFound, body := .obj [("message", .str "User not found")] } ∧
      (updateUser db id (.ok user)).1 =
        { status := StatusNotFound, body := .obj [("message", .str "User not found")] } ∧
      (deleteUser db id).1 =
        { status := StatusNotFound, body := .obj [("message", .str "User not found")] } ∧
      (getUser db id).status ≠ StatusInternalServerError ∧
      (updateUser db id (.ok user)).1.status ≠ StatusInternalServerError ∧
      (deleteUser db id).1.status ≠ StatusInternalServerError := by
  have hg : getUser db id =
      { status := StatusNotFound, body := .obj [("message", .str "User not found")] } := by
    simp [getUser, Store.selectById, hup, hid, find_none_of_no_id db.rows n hmiss]
  have hu : (updateUser db id (.ok user)).1 =
      { status := StatusNotFound, body := .obj [("message", .str "User not found")] } := by
    rw [updateUser_reachable db id n user hup htn hte hid]
    simp [any_false_of_no_id db.rows n hmiss, countP_zero_of_no_id db.rows n hmiss]
  have hd : (deleteUser db id).1 =
      { status := StatusNotFound, body := .obj [("message", .str "User not found")] } := by
    simp [deleteUser, Store.execDelete, hup, hid, countP_zero_of_no_id db.rows n hmiss,
      Result.RowsAffected]
  refine ⟨hg, hu, hd, ?_, ?_, ?_⟩
  · rw [hg]; decide
  · rw [hu]; decide
  · rw [hd]; decide

/-- Witness for C3, amended: id 7 on the two-user store. -/
theorem missing_id_not_found_witness :
    getUser twoUsers "7" =
        { status := StatusNotFound, body := .obj [("message", .str "User not found")] } ∧
      (updateUser twoUsers "7" (.ok ⟨"esi", "esi@x.io"⟩)).1 =
        { status := StatusNotFound, body := .obj [("message", .str "User not found")] } ∧
      (deleteUser twoUsers "7").1 =
        { status := StatusNotFound, body := .obj [("message", .str "User not found")] } ∧
      (getUser twoUsers "7").status ≠ StatusInternalServerError ∧
      (updateUser twoUsers "7" (.ok ⟨"esi", "esi@x.io"⟩)).1.status ≠ StatusInternalServerError ∧
      (deleteUser twoUsers "7").1.status ≠ StatusInternalServerError :=
  missing_id_not_found twoUsers "7" 7 ⟨"esi", "esi@x.io"⟩ (by decide) (by decide) (by decide)
    (by decide) (by decide)

/-- C4 as written fails: an update of user 2 with empty name and empty email is answered
200 and the stored row is overwritten with the empty fields. -/
theorem updateUser_accepts_empty_fields :
    updateUser twoUsers "2" (.ok ⟨"", ""⟩) =
        ({ status := StatusOK, body := .obj [("message", .str "User updated successfully")] },
         { twoUsers with rows := [⟨1, "ama", "ama@x.io"⟩, ⟨2, "", ""⟩] }) ∧
      (updateUser twoUsers "2" (.ok ⟨"", ""⟩)).1.status ≠ StatusBadRequest ∧
      (updateUser twoUsers "2" (.ok ⟨"", ""⟩)).2.rows ≠ twoUsers.rows := by
  decide

/-- C4, amended: for the id `n` of an existing row, a decoded update request whose name
or email is empty is handled like any other decoded request and is never answered 400.
The answer is 200, 409 or 500; with 200 the rows with id `n` hold the submitted (empty)
fields and the other rows are unchanged, with 409 or 500 the whole store is unchanged.
The answer is 200 exactly when the store is reachable, the submitted name and email hold
no zero byte (which the store refuses) and no other row collides with the submitted
fields.  400 is the answer to a body that does not decode, and then the store is
unchanged. -/
theorem updateUser_empty_fields_not_rejected (db : Store) (id : String) (n : Int) (user : User)
    (hid : db.parseId id = .ok n) (hex : ∃ r ∈ db.rows, r.id = n)
    (_hempty : user.Name = "" ∨ user.Email = "") :
    (updateUser db id (.ok user)).1.status ≠ StatusBadRequest ∧
      ((updateUser db id (.ok user)).1.status = StatusOK ∨
        (updateUser db id (.ok user)).1.status = StatusConflict ∨
        (updateUser db id (.ok user)).1.status = StatusInternalServerError) ∧
      ((updateUser db id (.ok user)).1.status = StatusOK →
        (updateUser db id (.ok user)).2.rows =
          db.rows.map (fun r => if r.id = n then (⟨n, user.Name, user.Email⟩ : Row) else r)) ∧
      ((updateUser db id (.ok user)).1.status ≠ StatusOK →
        (updateUser db id (.ok user)).2 = db) ∧
      ((updateUser db id (.ok user)).1.status = StatusOK ↔
        (db.down = none ∧ textOk user.Name = true ∧ textOk user.Email = true ∧
          ∀ r ∈ db.rows, r.id ≠ n → db.conflict ⟨n, user.Name, user.Email⟩ r = false)) ∧
      (∀ e, updateUser db id (.error e) =
        ({ status := StatusBadRequest, body := .obj [("error", .str e)] }, db)) := by
  have hcount : db.rows.countP (fun r => r.id == n) ≠ 0 := by
    rcases hex with ⟨r, hr, hrn⟩
    intro h0
    rw [List.countP_eq_zero] at h0
    have := h0 r hr
    simp [hrn] at this
  have hhit : db.rows.any (fun r => r.id == n) = true := by
    rcases hex with ⟨r, hr, hrn⟩
    rw [List.any_eq_true]
    exact ⟨r, hr, by simp [hrn]⟩
  have key : ((updateUser db id (.ok user)).1.status = StatusOK ∧
        (updateUser db id (.ok user)).2.rows =
          db.rows.map (fun r => if r.id = n then (⟨n, user.Name, user.Email⟩ : Row) else r)) ∨
      (((updateUser db id (.ok user)).1.status = StatusConflict ∨
        (updateUser db id (.ok user)).1.status = StatusInternalServerError) ∧
        (updateUser db id (.ok user)).2 = db) := by
    by_cases h200 : (updateUser db id (.ok user)).1.status = StatusOK
    · exact Or.inl ⟨h200, updateUser_ok_rows db id n user hid h200⟩
    · right
      rcases Option.eq_none_or_eq_some db.down with hd | ⟨e, hd⟩
      · by_cases ht : (textOk user.Name && textOk user.Email) = true
        · have ht2 := Bool.and_eq_true_iff.1 ht
          rw [updateUser_reachable db id n user hd ht2.1 ht2.2 hid] at h200 ⊢
          split_ifs at h200 ⊢ with h1
          · exact ⟨Or.inl rfl, rfl⟩
          · exact absurd rfl h200
        · rw [updateUser_bad_text db id user hd ht]
          exact ⟨Or.inr rfl, rfl⟩
      · rw [updateUser_unreachable db id user e hd]
        split_ifs
        · exact ⟨Or.inl rfl, rfl⟩
        · exact ⟨Or.inr rfl, rfl⟩
  refine ⟨?_, ?_, ?_, ?_, ?_, fun e => rfl⟩
  · rcases key with ⟨h, _⟩ | ⟨h | h, _⟩ <;> rw [h] <;> decide
  · rcases key with ⟨h, _⟩ | ⟨h | h, _⟩
    · exact Or.inl h
    · exact Or.inr (Or.inl h)
    · exact Or.inr (Or.inr h)
  · intro h200
    rcases key with ⟨_, h⟩ | ⟨h | h, _⟩
    · exact h
    · rw [h] at h200; exact absurd h200 (by decide)
    · rw [h] at h200; exact absurd h200 (by decide)
  · intro hne
    rcases key with ⟨h, _⟩ | ⟨_, h⟩
    · exact absurd h hne
    · exact h
  · constructor
    · intro h200
      obtain ⟨hup, htn, hte, _, _⟩ := updateUser_ok_inv db id n user hid h200
      refine ⟨hup, htn, hte, ?_⟩
      rw [updateUser_reachable db id n user hup htn hte hid] at h200
      by_cases hc : (db.rows.any (fun r => r.id == n) &&
          db.rows.any (fun r => r.id != n && db.conflict ⟨n, user.Name, user.Email⟩ r)) = true
      · rw [if_pos hc] at h200
        simp at h200
      · rw [hhit, Bool.true_and] at hc
        have hc2 : db.rows.any
            (fun r => r.id != n && db.conflict ⟨n, user.Name, user.Email⟩ r) = false := by
          simpa using hc
        rw [List.any_eq_false] at hc2
        intro r hr hrn
        have := hc2 r hr
        simpa [hrn] using this
    · rintro ⟨hup, htn, hte, hfree⟩
      rw [updateUser_reachable db id n user hup htn hte hid]
      have hnc : (db.rows.any (fun r => r.id != n && db.conflict ⟨n, user.Name, user.Email⟩ r))
          = false := by
        rw [List.any_eq_false]
        intro r hr
        by_cases hrn : r.id = n
        · simp [hrn]
        · simp [hfree r hr hrn]
      rw [hnc, Bool.and_false]
      simp [hcount]

/-- Witness for C4, amended: user 2 of the two-user store, empty name and email. -/
theorem updateUser_empty_fields_not_rejected_witness :
    (updateUser twoUsers "2" (.ok ⟨"", ""⟩)).1.status ≠ StatusBadRequest ∧
      (updateUser twoUsers "2" (.ok ⟨"", ""⟩)).1.status = StatusOK ∧
      (updateUser twoUsers "2" (.ok ⟨"", ""⟩)).2.rows =
        twoUsers.rows.map (fun r => if r.id = 2 then (⟨2, "", ""⟩ : Row) else r) :=
  have h := updateUser_empty_fields_not_rejected twoUsers "2" 2 ⟨"", ""⟩ (by decide)
    (by decide) (Or.inl rfl)
  ⟨h.1, h.2.2.2.2.1.2 (by decide), h.2.2.1 (h.2.2.2.2.1.2 (by decide))⟩

/-- C5: when the store's UPDATE fails with an error whose text contains
"unique constraint" (a uniqueness violation), `updateUser` answers 409 with body
`{message: "User with this name or email already exists"}` and the store, the target row
included, is left as it was; when the UPDATE fails with an error whose text lacks that
marker, `updateUser` answers 500. -/
theorem updateUser_store_error (db db1 : Store) (id : String) (user : User) (err : GoError)
    (hexec : db.execUpdate user.Name user.Email id = (.error err, db1)) :
    (stringsContains err.Error "unique constraint" = true →
        updateUser db id (.ok user) =
          ({ status := StatusConflict,
             body := .obj [("message", .str "User with this name or email already exists")] },
           db) ∧
        db1 = db) ∧
      (stringsContains err.Error "unique constraint" = false →
        updateUser db id (.ok user) =
          ({ status := StatusInternalServerError, body := .obj [("error", .str err.Error)] },
           db) ∧
        db1 = db) := by
  have hdb : db1 = db := execUpdate_error_store db db1 user.Name user.Email id err hexec
  subst hdb
  constructor
  · intro hc
    refine ⟨?_, rfl⟩
    unfold updateUser
    simp only [hexec, hc, if_true]
  · intro hc
    refine ⟨?_, rfl⟩
    unfold updateUser
    simp only [hexec, hc]
    simp

/-- Witness for C5: a colliding rename on the two-user store is answered 409 and changes
nothing; the same request with the connection broken is answered 500. -/
theorem updateUser_store_error_witness :
    updateUser twoUsers "2" (.ok ⟨"ama", "kofi@x.io"⟩) =
        ({ status := StatusConflict,
           body := .obj [("message", .str "User with this name or email already exists")] },
         twoUsers) ∧
      updateUser twoUsersDown "2" (.ok ⟨"ama", "kofi@x.io"⟩) =
        ({ status := StatusInternalServerError,
           body := .obj [("error",
             .str "dial tcp 127.0.0.1:5432: connect: connection refused")] },
         twoUsersDown) :=
  ⟨((updateUser_store_error twoUsers twoUsers "2" ⟨"ama", "kofi@x.io"⟩
      (.other (uniqueViolation "users_unique")) rfl).1 (by decide)).1,
    ((updateUser_store_error twoUsersDown twoUsersDown "2" ⟨"ama", "kofi@x.io"⟩
      (.other "dial tcp 127.0.0.1:5432: connect: connection refused") rfl).2 (by decide)).1⟩

/-- C6 as written fails: the pair ("esi", "esi@x.io") has both fields non-empty and
matches no row of the two-user table, yet `createUser` answers 500 and inserts nothing
when the connection is broken, and likewise when the id sequence is exhausted; so it
does for the fresh non-empty name that holds a zero byte. -/
theorem createUser_fresh_pair_answered_500 :
    (∀ r ∈ twoUsersDown.rows, r.name ≠ "esi" ∧ r.email ≠ "esi@x.io") ∧
      createUser twoUsersDown (.ok ⟨"esi", "esi@x.io"⟩) =
        ({ status := StatusInternalServerError,
           body := .obj [("error", .str
             "Database error: dial tcp 127.0.0.1:5432: connect: connection refused")] },
         twoUsersDown) ∧
      createUser twoUsersExhausted (.ok ⟨"esi", "esi@x.io"⟩) =
        ({ status := StatusInternalServerError,
           body := .obj [("error", .str sequenceExhausted)] },
         twoUsersExhausted) ∧
      nulName ≠ "" ∧
      (∀ r ∈ twoUsers.rows, r.name ≠ nulName ∧ r.email ≠ "esi@x.io") ∧
      createUser twoUsers (.ok ⟨nulName, "esi@x.io"⟩) =
        ({ status := StatusInternalServerError,
           body := .obj [("error", .str ("Database error: " ++ invalidByte))] },
         twoUsers) := by
  decide

/-- C6, amended: on a valid store that is reachable and whose id sequence is not
exhausted, for a (name, email) pair with both fields non-empty and free of zero bytes
that no existing row matches in name or in email, `createUser` answers 200 with a
positive integer `user_id` (the next value of the sequence, within the column's type),
and `getUser` on the resulting store with that id (its decimal text, or any text the
store reads as that id) answers 200 with exactly the submitted name and email. -/
theorem create_then_get (db : Store) (user : User) (hv : db.Valid) (hup : db.down = none)
    (hmax : db.seq + 1 ≤ db.idType.max)
    (_hname : user.Name ≠ "") (_hemail : user.Email ≠ "")
    (htn : textOk user.Name = true) (hte : textOk user.Email = true)
    (hnew : ∀ r ∈ db.rows, r.name ≠ user.Name ∧ r.email ≠ user.Email) :
    (createUser db (.ok user)).1 =
        { status := StatusOK,
          body := .obj [("message", .str "User created successfully"),
                        ("user_id", .int ((db.seq : Int) + 1))] } ∧
      0 < (db.seq : Int) + 1 ∧ (db.seq : Int) + 1 ≤ (db.idType.max : Int) ∧
      getUser (createUser db (.ok user)).2 (toString ((db.seq : Int) + 1)) =
        { status := StatusOK,
          body := .obj [("email", .str user.Email), ("id", .str (toString ((db.seq : Int) + 1))),
                        ("name", .str user.Name)] } ∧
      ∀ s, (createUser db (.ok user)).2.parseId s = .ok ((db.seq : Int) + 1) →
        getUser (createUser db (.ok user)).2 s =
          { status := StatusOK,
            body := .obj [("email", .str user.Email),
                          ("id", .str (toString ((db.seq : Int) + 1))),
                          ("name", .str user.Name)] } := by
  have hseq : ∀ r ∈ db.rows, r.id ≠ (db.seq : Int) + 1 := by
    intro r hr
    have := hv.1 r hr
    omega
  have hcreate := createUser_fresh db user hup htn hte hmax hseq hnew
  have hget : ∀ s, (createUser db (.ok user)).2.parseId s = .ok ((db.seq : Int) + 1) →
      getUser (createUser db (.ok user)).2 s =
        { status := StatusOK,
          body := .obj [("email", .str user.Email),
                        ("id", .str (toString ((db.seq : Int) + 1))),
                        ("name", .str user.Name)] } := by
    intro s hs
    apply getUser_found _ s ((db.seq : Int) + 1) ⟨(db.seq : Int) + 1, user.Name, user.Email⟩
    · rw [hcreate]; exact hup
    · exact hs
    · rw [hcreate]
      show (db.rows ++ [(⟨(db.seq : Int) + 1, user.Name, user.Email⟩ : Row)]).find?
        (fun r => r.id == (db.seq : Int) + 1) = some ⟨(db.seq : Int) + 1, user.Name, user.Email⟩
      rw [List.find?_append, find_none_of_no_id db.rows _ hseq]
      simp
  refine ⟨by rw [hcreate], by omega, by omega, ?_, hget⟩
  apply hget
  have hcast : (db.seq : Int) + 1 = ((db.seq + 1 : Nat) : Int) := by push_cast; rfl
  rw [hcast]
  apply parseId_toString
  rw [hcreate]
  exact hmax

/-- Witness for C6, amended: creating "esi" on the two-user store, then reading id 3. -/
theorem create_then_get_witness :
    (createUser twoUsers (.ok ⟨"esi", "esi@x.io"⟩)).1 =
        { status := StatusOK,
          body := .obj [("message", .str "User created successfully"),
                        ("user_id", .int ((twoUsers.seq : Int) + 1))] } ∧
      0 < (twoUsers.seq : Int) + 1 ∧
      getUser (createUser twoUsers (.ok ⟨"esi", "esi@x.io"⟩)).2
          (toString ((twoUsers.seq : Int) + 1)) =
        { status := StatusOK,
          body := .obj [("email", .str "esi@x.io"),
                        ("id", .str (toString ((twoUsers.seq : Int) + 1))),
                        ("name", .str "esi")] } ∧
      getUser (createUser twoUsers (.ok ⟨"esi", "esi@x.io"⟩)).2 " 03" =
        { status := StatusOK,
          body := .obj [("email", .str "esi@x.io"),
                        ("id", .str (toString ((twoUsers.seq : Int) + 1))),
                        ("name", .str "esi")] } :=
  have h := create_then_get twoUsers ⟨"esi", "esi@x.io"⟩ (by decide) (by decide) (by decide)
    (by decide) (by decide) (by decide) (by decide) (by decide)
  ⟨h.1, h.2.1, h.2.2.2.1, h.2.2.2.2 " 03" (by decide)⟩

/-- C7: when `updateUser` on the id `n` of an existing row answers 200 to a decoded
request (name', email'), `getUser` on the resulting store with the same path parameter
answers 200 with exactly name' and email' under the same id, the rows with id `n` now
hold (n, name', email'), and every row with another id is unchanged. -/
theorem update_then_get (db : Store) (id : String) (n : Int) (user : User)
    (hid : db.parseId id = .ok n) (_hex : ∃ r ∈ db.rows, r.id = n)
    (h : (updateUser db id (.ok user)).1.status = StatusOK) :
    getUser (updateUser db id (.ok user)).2 id =
        { status := StatusOK,
          body := .obj [("email", .str user.Email), ("id", .str (toString n)),
                        ("name", .str user.Name)] } ∧
      (updateUser db id (.ok user)).2.rows =
        db.rows.map (fun r => if r.id = n then (⟨n, user.Name, user.Email⟩ : Row) else r) ∧
      (∀ r, r.id ≠ n → (r ∈ (updateUser db id (.ok user)).2.rows ↔ r ∈ db.rows)) := by
  obtain ⟨hup, _, _, hex, heq⟩ := updateUser_ok_inv db id n user hid h
  have hrows := updateUser_ok_rows db id n user hid h
  refine ⟨?_, hrows, ?_⟩
  · rw [heq]
    exact getUser_found _ id n ⟨n, user.Name, user.Email⟩ hup hid
      (find_after_update db.rows n user.Name user.Email hex)
  · intro r hr
    rw [hrows, List.mem_map]
    constructor
    · rintro ⟨r0, hr0, he⟩
      by_cases h0 : r0.id = n
      · rw [if_pos h0] at he
        subst he
        exact absurd rfl hr
      · rw [if_neg h0] at he
        subst he
        exact hr0
    · intro hmem
      exact ⟨r, hmem, by rw [if_neg hr]⟩

/-- Witness for C7: renaming user 2 of the two-user store; user 1 stays. -/
theorem update_then_get_witness :
    getUser (updateUser twoUsers "2" (.ok ⟨"yaw", "yaw@x.io"⟩)).2 "2" =
        { status := StatusOK,
          body := .obj [("email", .str "yaw@x.io"), ("id", .str (toString (2 : Int))),
                        ("name", .str "yaw")] } ∧
      (updateUser twoUsers "2" (.ok ⟨"yaw", "yaw@x.io"⟩)).2.rows =
        twoUsers.rows.map (fun r => if r.id = 2 then (⟨2, "yaw", "yaw@x.io"⟩ : Row) else r) ∧
      ((⟨1, "ama", "ama@x.io"⟩ : Row) ∈ (updateUser twoUsers "2" (.ok ⟨"yaw", "yaw@x.io"⟩)).2.rows ↔
        (⟨1, "ama", "ama@x.io"⟩ : Row) ∈ twoUsers.rows) :=
  have h := update_then_get twoUsers "2" 2 ⟨"yaw", "yaw@x.io"⟩ (by decide) (by decide)
    (by decide)
  ⟨h.1, h.2.1, h.2.2 ⟨1, "ama", "ama@x.io"⟩ (by decide)⟩

/-- C8 as written fails: on the empty reachable table the body is `null`, not `[]`. -/
theorem getAllUsers_empty_is_null :
    getAllUsers emptyStore = { status := StatusOK, body := .null } ∧
      (getAllUsers emptyStore).body ≠ .arr [] := by
  decide

/-- C8, amended: when the users table is empty and the store is reachable, `getAllUsers`
answers 200 and its body is JSON `null` (the nil slice, to which nothing was appended):
neither the empty array nor an error object. -/
theorem getAllUsers_empty (db : Store) (hrows : db.rows = []) (hup : db.down = none) :
    getAllUsers db = { status := StatusOK, body := .null } ∧
      (getAllUsers db).body ≠ .arr [] ∧
      (∀ o, (getAllUsers db).body ≠ .obj o) := by
  have h : getAllUsers db = { status := StatusOK, body := .null } := by
    simp [getAllUsers, Store.selectAll, hup, hrows, scanUsers, marshalMaps]
  refine ⟨h, ?_, ?_⟩
  · rw [h]; simp
  · intro o; rw [h]; simp

/-- Witness for C8, amended: the empty store. -/
theorem getAllUsers_empty_witness :
    getAllUsers emptyStore = { status := StatusOK, body := .null } ∧
      (getAllUsers emptyStore).body ≠ .arr [] :=
  have h := getAllUsers_empty emptyStore rfl rfl
  ⟨h.1, h.2.1⟩

/-- C9: `statusCheck` answers 200 whatever `Ping` returns.  The application, email,
version and environment fields are the same fixed values in both cases; when the ping
fails `alive` is false and `errors` is the one-element list
`["Database connection failed"]`; when it succeeds `alive` is true and `errors` holds no
entry (the nil slice, written as `null`). -/
theorem statusCheck_reports (db : Store) :
    (statusCheck db).status = StatusOK ∧
      (statusCheck db).body.field "application" = some (.str "My Management System") ∧
      (statusCheck db).body.field "email" = some (.str "jkpodo05@gmail.com") ∧
      (statusCheck db).body.field "version" = some (.str "1.0.0") ∧
      (statusCheck db).body.field "environment" = some (.str "staging") ∧
      (match db.Ping with
        | some _ =>
          (statusCheck db).body.field "alive" = some (.bool false) ∧
            (statusCheck db).body.field "errors" = some (.strs ["Database connection failed"])
        | none =>
          (statusCheck db).body.field "alive" = some (.bool true) ∧
            (statusCheck db).body.field "errors" = some .null) := by
  cases hd : db.down with
  | none =>
    simp [statusCheck, Store.Ping, hd, statusResponse.marshal, Json.field, List.find?,
      marshalStrings]
  | some e =>
    simp [statusCheck, Store.Ping, hd, statusResponse.marshal, Json.field, List.find?,
      marshalStrings, Slice.append]

/-- C10: for a row `r` of a valid, reachable store, the successful `getUser` body carries
the id as a string (the decimal text of `r.id`, read back into the variable that held the
path parameter), the entry of the same row in the `getAllUsers` body carries it as an
integer, and the name and email fields of the two agree. -/
theorem getUser_id_is_text (db : Store) (r : Row) (id : String) (hv : db.Valid)
    (hup : db.down = none) (hr : r ∈ db.rows) (hid : db.parseId id = .ok r.id) :
    getUser db id =
        { status := StatusOK,
          body := .obj [("email", .str r.email), ("id", .str (toString r.id)),
                        ("name", .str r.name)] } ∧
      getAllUsers db = { status := StatusOK, body := .arr (db.rows.map userEntry) } ∧
      userEntry r ∈ db.rows.map userEntry ∧
      (getUser db id).body.field "id" = some (.str (toString r.id)) ∧
      (Json.obj (userEntry r)).field "id" = some (.int r.id) ∧
      (getUser db id).body.field "name" = (Json.obj (userEntry r)).field "name" ∧
      (getUser db id).body.field "email" = (Json.obj (userEntry r)).field "email" ∧
      db.parseId (toString r.id) = .ok r.id := by
  have hget := getUser_found db id r.id r hup hid (find_of_mem_nodup db.rows r hr hv.2.1)
  have hall := getAllUsers_nonempty db hup (List.ne_nil_of_mem hr)
  refine ⟨hget, hall, List.mem_map_of_mem userEntry hr, ?_, ?_, ?_, ?_, ?_⟩
  · rw [hget]; simp [Json.field, List.find?]
  · simp [Json.field, List.find?, userEntry]
  · rw [hget]; simp [Json.field, List.find?, userEntry]
  · rw [hget]; simp [Json.field, List.find?, userEntry]
  · exact parseId_toString_row db r hv hr

/-- Witness for C10: user 2 of the two-user store. -/
theorem getUser_id_is_text_witness :
    getUser twoUsers "2" =
        { status := StatusOK,
          body := .obj [("email", .str "kofi@x.io"), ("id", .str "2"), ("name", .str "kofi")] } ∧
      getAllUsers twoUsers =
        { status := StatusOK,
          body := .arr [[("email", .str "ama@x.io"), ("id", .int 1), ("name", .str "ama")],
                        [("email", .str "kofi@x.io"), ("id", .int 2), ("name", .str "kofi")]] } :=
  ⟨(getUser_id_is_text twoUsers ⟨2, "kofi", "kofi@x.io"⟩ "2" (by decide) (by decide)
      (by decide) (by decide)).1,
    (getUser_id_is_text twoUsers ⟨2, "kofi", "kofi@x.io"⟩ "2" (by decide) (by decide)
      (by decide) (by decide)).2.1⟩

end ManageApi
